import Mathlib

/-!
Verification of the package status workflow engine of the 818-log shipment
tracker. The definitions below are shallow embeddings of the TypeScript
source: the PackageStatus and UserRole enumerations (src/types.ts), the
role transition policy getAvailableNextStatuses (src/pages/ScanQR.tsx),
the workload query getPackagesByRole and the dual-store update transaction
updatePackageStatus (src/services/dataService.ts). Firestore is modelled
as association lists keyed by document id, and write failures are modelled
by an explicit fault-injection record so that error propagation can be
stated.
-/

set_option maxHeartbeats 1000000

/-- Enumeration PackageStatus from src/types.ts, in declaration order.
Object.values of the enum lists the constructors in exactly this order,
with ISSUE_REPORTED last. -/
inductive PackageStatus where
  | PURCHASED_FROM_SELLER
  | IN_TRANSIT_TO_CHINA_AGENT
  | RECEIVED_IN_CHINA
  | QC_CHECKED
  | PACKED_CHINA
  | READY_TO_SHIP_UAE
  | SHIPPED_TO_UAE
  | ARRIVED_UAE
  | REPACKING
  | READY_TO_SHIP_IRAN
  | SHIPPED_TO_IRAN
  | ARRIVED_IRAN
  | OUT_FOR_DELIVERY
  | DELIVERED
  | ISSUE_REPORTED
  deriving DecidableEq, Fintype, Repr

/-- Enumeration UserRole from src/types.ts. -/
inductive UserRole where
  | ADMIN
  | CHINA_AGENT
  | UAE_AGENT
  | IRAN_AGENT
  | CUSTOMER
  deriving DecidableEq, Fintype, Repr

open PackageStatus UserRole

/-- The list Object.values(PackageStatus) used as statusOrder in
updatePackageStatus (dataService.ts line 207). It contains every
enumeration member, ISSUE_REPORTED included, in declaration order. -/
def statusOrder : List PackageStatus :=
  [PURCHASED_FROM_SELLER, IN_TRANSIT_TO_CHINA_AGENT, RECEIVED_IN_CHINA,
   QC_CHECKED, PACKED_CHINA, READY_TO_SHIP_UAE, SHIPPED_TO_UAE,
   ARRIVED_UAE, REPACKING, READY_TO_SHIP_IRAN, SHIPPED_TO_IRAN,
   ARRIVED_IRAN, OUT_FOR_DELIVERY, DELIVERED, ISSUE_REPORTED]

/-- Rank of a status: its index in statusOrder. Every enumeration member
occurs in statusOrder, so the index is always defined and below 15. -/
def rank (s : PackageStatus) : Nat := statusOrder.indexOf s

/-- Origin phase list chinaStatuses from getAvailableNextStatuses
(ScanQR.tsx lines 238-246). -/
def chinaStatuses : List PackageStatus :=
  [PURCHASED_FROM_SELLER, IN_TRANSIT_TO_CHINA_AGENT, RECEIVED_IN_CHINA,
   QC_CHECKED, PACKED_CHINA, READY_TO_SHIP_UAE, SHIPPED_TO_UAE]

/-- Hub phase list uaeStatuses from getAvailableNextStatuses
(ScanQR.tsx lines 248-254). -/
def uaeStatuses : List PackageStatus :=
  [SHIPPED_TO_UAE, ARRIVED_UAE, REPACKING, READY_TO_SHIP_IRAN,
   SHIPPED_TO_IRAN]

/-- Destination phase list iranStatuses from getAvailableNextStatuses
(ScanQR.tsx lines 256-261). -/
def iranStatuses : List PackageStatus :=
  [SHIPPED_TO_IRAN, ARRIVED_IRAN, OUT_FOR_DELIVERY, DELIVERED]

/-- The phase list a role selects in getAvailableNextStatuses: the admin
list is the concatenation china then uae then iran, a customer selects
nothing. This is the allowedStatuses selection of ScanQR.tsx lines
264-274, written as a table. -/
def roleStatusList : UserRole → List PackageStatus
  | CHINA_AGENT => chinaStatuses
  | UAE_AGENT => uaeStatuses
  | IRAN_AGENT => iranStatuses
  | ADMIN => chinaStatuses ++ uaeStatuses ++ iranStatuses
  | CUSTOMER => []

/-- The role transition policy getAvailableNextStatuses of ScanQR.tsx
lines 234-287: select the phase list for the role, locate the current
status by indexOf (first occurrence, -1 when absent), and return the
slice strictly after it; empty when the list is empty or the status is
absent. -/
def getAvailableNextStatuses (role : UserRole) (current : PackageStatus) :
    List PackageStatus :=
  let allowedStatuses := roleStatusList role
  if allowedStatuses.length = 0 then []
  else
    match allowedStatuses.indexOf? current with
    | none => []
    | some currIdx => allowedStatuses.drop (currIdx + 1)

/-- Package record (src/types.ts). Fields not touched by the workflow
engine are omitted except for a representative metadata sample
(trackingNumber, weight, photoUrls, internalTrackingCode) so that frame
properties over the untouched fields are meaningful. The numeric weight
is modelled as Nat: the engine stores it and never computes with it. -/
structure Package where
  id : String
  orderId : String
  currentStatus : PackageStatus
  trackingNumber : String
  weight : Option Nat
  photoUrls : List String
  internalTrackingCode : Option String
  deriving DecidableEq, Repr

/-- Partial Package patch, the additionalData argument of
updatePackageStatus. The callers (ScanQR.tsx lines 452-458) populate at
most the weight and photoUrls fields. A field left none is absent from
the patch and keeps its stored value. -/
structure PackagePatch where
  weight : Option Nat := none
  photoUrls : Option (List String) := none
  deriving DecidableEq, Repr

/-- Spread semantics of both writes in updatePackageStatus: the document
merged with currentStatus set to newStatus and the fields present in
additionalData overriding (dataService.ts lines 184-187 and 196-198). -/
def applyPatch (p : Package) (newStatus : PackageStatus)
    (additionalData : PackagePatch) : Package :=
  { p with
    currentStatus := newStatus
    weight := match additionalData.weight with
      | some w => some w
      | none => p.weight
    photoUrls := (additionalData.photoUrls).getD p.photoUrls }

/-- Order record (src/types.ts), restricted to the fields the workflow
engine reads or writes. -/
structure Order where
  id : String
  customerId : String
  packages : List Package
  status : PackageStatus
  deriving DecidableEq, Repr

/-- Tracking event document appended by updatePackageStatus step 3
(dataService.ts lines 228-236). -/
structure TrackingEvent where
  id : String
  packageId : String
  status : PackageStatus
  timestamp : Nat
  userId : String
  location : String
  notes : String
  deriving DecidableEq, Repr

/-- Audit log document appended by logAction (dataService.ts
lines 392-402). -/
structure AuditLog where
  id : String
  action : String
  userId : String
  userName : String
  details : String
  severity : String
  timestamp : Nat
  deriving DecidableEq, Repr

/-- Firestore state visible to the workflow engine: the packages and
orders collections keyed by document id, and the append-only
tracking_events and audit_logs collections. -/
structure Store where
  packages : List (String × Package)
  orders : List (String × Order)
  events : List TrackingEvent
  audits : List AuditLog
  deriving DecidableEq, Repr

/-- Read a document by id (getDoc): first entry with the given key. -/
def lookupAssoc {α : Type} : List (String × α) → String → Option α
  | [], _ => none
  | e :: t, k => if e.1 = k then some e.2 else lookupAssoc t k

/-- Overwrite the document stored under an existing key (updateDoc on a
document that exists). Keys not equal to k are untouched; an absent key
leaves the collection unchanged. -/
def setAssoc {α : Type} (l : List (String × α)) (k : String) (v : α) :
    List (String × α) :=
  l.map (fun e => if e.1 = k then (e.1, v) else e)

/-- Fault injection for the four writes updatePackageStatus performs, in
order: the package updateDoc, the order updateDoc, the tracking event
addDoc, and the audit log addDoc inside logAction. A some value makes
that write throw exactly that error value. -/
structure WriteFaults where
  pkgWrite : Option String := none
  orderWrite : Option String := none
  eventWrite : Option String := none
  auditWrite : Option String := none
  deriving DecidableEq, Repr

/-- All writes succeed. -/
def noFaults : WriteFaults := {}

/-- One iteration of the minimum-index loop of dataService.ts lines
211-217. The idx check against -1 of the source is vacuous here because
every enumeration member occurs in statusOrder; an absent status would
yield index 15, which equally fails idx less than minIndex. -/
def minStep (acc : Nat × PackageStatus) (status : PackageStatus) :
    Nat × PackageStatus :=
  let idx := statusOrder.indexOf status
  if idx < acc.1 then (idx, status) else acc

/-- The overall order status computation of dataService.ts lines 200-218:
newStatus unless the updated list has more than one package, in which
case the status of minimum index in statusOrder, starting the search from
minIndex equal to statusOrder.length with newStatus as the placeholder. -/
def resolveOverall (newStatus : PackageStatus)
    (updatedPackages : List Package) : PackageStatus :=
  if 1 < updatedPackages.length then
    ((updatedPackages.map (fun p => p.currentStatus)).foldl minStep
      (statusOrder.length, newStatus)).2
  else newStatus

/-- The embedded list rewrite of dataService.ts lines 196-198: every
entry whose id equals packageId is replaced by its patched snapshot,
every other entry is kept as is. -/
def embedUpdate (packages : List Package) (packageId : String)
    (newStatus : PackageStatus) (additionalData : PackagePatch) :
    List Package :=
  packages.map (fun p =>
    if p.id = packageId then applyPatch p newStatus additionalData else p)

/-- Name of a status as stored in Firestore (the string value of the
enum member in src/types.ts). -/
def statusName : PackageStatus → String
  | PURCHASED_FROM_SELLER => "PURCHASED_FROM_SELLER"
  | IN_TRANSIT_TO_CHINA_AGENT => "IN_TRANSIT_TO_CHINA_AGENT"
  | RECEIVED_IN_CHINA => "RECEIVED_IN_CHINA"
  | QC_CHECKED => "QC_CHECKED"
  | PACKED_CHINA => "PACKED_CHINA"
  | READY_TO_SHIP_UAE => "READY_TO_SHIP_UAE"
  | SHIPPED_TO_UAE => "SHIPPED_TO_UAE"
  | ARRIVED_UAE => "ARRIVED_UAE"
  | REPACKING => "REPACKING"
  | READY_TO_SHIP_IRAN => "READY_TO_SHIP_IRAN"
  | SHIPPED_TO_IRAN => "SHIPPED_TO_IRAN"
  | ARRIVED_IRAN => "ARRIVED_IRAN"
  | OUT_FOR_DELIVERY => "OUT_FOR_DELIVERY"
  | DELIVERED => "DELIVERED"
  | ISSUE_REPORTED => "ISSUE_REPORTED"

/-- The logAction method (dataService.ts lines 392-402): appends an audit
document, and catches any write error itself, only logging it to the
console — the error is never rethrown, so the caller always sees
success. -/
def logAction (st : Store) (fault : Option String) (entry : AuditLog) :
    Store :=
  match fault with
  | some _ => st
  | none => { st with audits := st.audits ++ [entry] }

/-- Steps 3 and 4 of updatePackageStatus (dataService.ts lines 227-245):
append the tracking event (a thrown error propagates through the
surrounding catch, which rethrows), then call logAction, whose own
failures are swallowed. -/
def finishUpdate (st : Store) (faults : WriteFaults) (packageId : String)
    (newStatus : PackageStatus) (userId notes location : String)
    (eventId auditId : String) (now : Nat) : Store × Option String :=
  match faults.eventWrite with
  | some e => (st, some e)
  | none =>
    let st3 := { st with events := st.events ++
      [{ id := eventId, packageId := packageId, status := newStatus,
         timestamp := now, userId := userId, location := location,
         notes := notes }] }
    let st4 := logAction st3 faults.auditWrite
      { id := auditId, action := "STATUS_UPDATE", userId := userId,
        userName := "Agent",
        details := "Package " ++ packageId ++ " updated to " ++
          statusName newStatus,
        severity := "INFO", timestamp := now }
    (st4, none)

/-- The update transaction updatePackageStatus (dataService.ts lines
166-251). Reads the normalized package (throwing Package not found when
absent), patches it in the packages collection, then, when the parent
order document exists, rewrites its embedded list and recomputes the
overall status, then appends the tracking event and the audit entry. The
whole body sits in a try/catch that rethrows, so every thrown write error
reaches the caller unchanged; the returned Store is the state after the
writes that completed. The generated event and audit ids and the clock
are passed in as parameters. -/
def updatePackageStatus (st : Store) (faults : WriteFaults)
    (packageId : String) (newStatus : PackageStatus)
    (userId notes location : String) (additionalData : PackagePatch)
    (eventId auditId : String) (now : Nat) : Store × Option String :=
  match lookupAssoc st.packages packageId with
  | none => (st, some "Package not found")
  | some currentPkg =>
    match faults.pkgWrite with
    | some e => (st, some e)
    | none =>
      let updatedPkg := applyPatch currentPkg newStatus additionalData
      let st1 := { st with packages := setAssoc st.packages packageId updatedPkg }
      let orderId := currentPkg.orderId
      match lookupAssoc st1.orders orderId with
      | none =>
        finishUpdate st1 faults packageId newStatus userId notes location
          eventId auditId now
      | some orderData =>
        let updatedPackages :=
          embedUpdate orderData.packages packageId newStatus additionalData
        let overallStatus := resolveOverall newStatus updatedPackages
        match faults.orderWrite with
        | some e => (st1, some e)
        | none =>
          let updatedOrder := { orderData with
            packages := updatedPackages, status := overallStatus }
          let st2 := { st1 with
            orders := setAssoc st1.orders orderId updatedOrder }
          finishUpdate st2 faults packageId newStatus userId notes location
            eventId auditId now

/-- Origin workload filter of getPackagesByRole (dataService.ts lines
340-347). Distinct from chinaStatuses of ScanQR: it stops before
SHIPPED_TO_UAE. -/
def chinaWorkloadStatuses : List PackageStatus :=
  [PURCHASED_FROM_SELLER, IN_TRANSIT_TO_CHINA_AGENT, RECEIVED_IN_CHINA,
   QC_CHECKED, PACKED_CHINA, READY_TO_SHIP_UAE]

/-- Hub workload filter of getPackagesByRole (dataService.ts lines
349-354). -/
def uaeWorkloadStatuses : List PackageStatus :=
  [SHIPPED_TO_UAE, ARRIVED_UAE, REPACKING, READY_TO_SHIP_IRAN]

/-- Destination workload filter of getPackagesByRole (dataService.ts
lines 355-359). -/
def iranWorkloadStatuses : List PackageStatus :=
  [SHIPPED_TO_IRAN, ARRIVED_IRAN, OUT_FOR_DELIVERY]

/-- The workload query getPackagesByRole (dataService.ts lines 338-377):
targetStatuses starts empty and is set only for the three agent roles;
when it stays empty the method returns the empty list without querying,
otherwise it returns the packages whose currentStatus is in the filter
(the Firestore in query over the packages collection). -/
def getPackagesByRole (role : UserRole) (packagesCol : List Package) :
    List Package :=
  let targetStatuses : List PackageStatus :=
    if role = CHINA_AGENT then chinaWorkloadStatuses
    else if role = UAE_AGENT then uaeWorkloadStatuses
    else if role = IRAN_AGENT then iranWorkloadStatuses
    else []
  if targetStatuses.length = 0 then []
  else packagesCol.filter (fun p => targetStatuses.contains p.currentStatus)

/-- One comparison of the spec resolver: keep the package of smaller
rank, the earlier one on a tie. -/
def minPkg (b p : Package) : Package :=
  if rank p.currentStatus < rank b.currentStatus then p else b

/-- Aggregate status resolver written to the words of spec section 4.3,
for comparison with the computation inlined in updatePackageStatus:
undefined (none, a MalformedOrderError) for an empty list, the verbatim
status for a singleton, otherwise the minimum-rank status among the
packages that are not ISSUE_REPORTED, with ISSUE_REPORTED as the
fallback when every package is ISSUE_REPORTED. -/
def specResolve : List Package → Option PackageStatus
  | [] => none
  | [p] => some p.currentStatus
  | p :: q :: rest =>
    match (p :: q :: rest).filter
        (fun r => decide (r.currentStatus ≠ ISSUE_REPORTED)) with
    | [] => some ISSUE_REPORTED
    | m :: ms => some ((ms.foldl minPkg m).currentStatus)

/-! Concrete stores used to instantiate the claims. -/

/-- Sample package sitting at RECEIVED_IN_CHINA inside order ORD-1. -/
def pkgEx : Package :=
  { id := "PKG-1", orderId := "ORD-1",
    currentStatus := RECEIVED_IN_CHINA, trackingNumber := "TN-1",
    weight := none, photoUrls := [], internalTrackingCode := none }

/-- Sample order holding only pkgEx. -/
def ordEx : Order :=
  { id := "ORD-1", customerId := "CUST-1", packages := [pkgEx],
    status := RECEIVED_IN_CHINA }

/-- Sample store with one package mirrored in its parent order. -/
def stEx : Store :=
  { packages := [("PKG-1", pkgEx)], orders := [("ORD-1", ordEx)],
    events := [], audits := [] }

/-- Package of Scenario B at ARRIVED_UAE. -/
def pkgB1 : Package :=
  { id := "PKG-B1", orderId := "ORD-B",
    currentStatus := ARRIVED_UAE, trackingNumber := "TN-B1",
    weight := none, photoUrls := [], internalTrackingCode := none }

/-- Package of Scenario B at RECEIVED_IN_CHINA. -/
def pkgB2 : Package :=
  { id := "PKG-B2", orderId := "ORD-B",
    currentStatus := RECEIVED_IN_CHINA, trackingNumber := "TN-B2",
    weight := none, photoUrls := [], internalTrackingCode := none }

/-- Order of Scenario B with the two packages. -/
def ordB : Order :=
  { id := "ORD-B", customerId := "CUST-B", packages := [pkgB1, pkgB2],
    status := RECEIVED_IN_CHINA }

/-- Store of Scenario B. -/
def stB : Store :=
  { packages := [("PKG-B1", pkgB1), ("PKG-B2", pkgB2)],
    orders := [("ORD-B", ordB)], events := [], audits := [] }

/-- Store whose packages collection is empty while order ORD-1 still
embeds a copy of PKG-1, the data shape of Scenario D. -/
def stOrphan : Store :=
  { packages := [], orders := [("ORD-1", ordEx)], events := [], audits := [] }

/-- Order with an empty embedded package list. -/
def ordEmpty : Order :=
  { id := "ORD-E", customerId := "CUST-E", packages := [],
    status := PURCHASED_FROM_SELLER }

/-- Package whose parent order ORD-E has an empty embedded list. -/
def pkgE : Package :=
  { id := "PKG-E", orderId := "ORD-E",
    currentStatus := RECEIVED_IN_CHINA, trackingNumber := "TN-E",
    weight := none, photoUrls := [], internalTrackingCode := none }

/-- Store pairing pkgE with the empty order. -/
def stEmpty : Store :=
  { packages := [("PKG-E", pkgE)], orders := [("ORD-E", ordEmpty)],
    events := [], audits := [] }

/-- Package flagged ISSUE_REPORTED, for the singleton resolver check. -/
def pkgIssue : Package :=
  { id := "PKG-I", orderId := "ORD-I",
    currentStatus := ISSUE_REPORTED, trackingNumber := "TN-I",
    weight := none, photoUrls := [], internalTrackingCode := none }

/-! Basic facts about rank and the minimum-index fold. -/

lemma statusOrder_length : statusOrder.length = 15 := rfl

lemma rank_lt_15 : ∀ s : PackageStatus, rank s < 15 := by decide

lemma rank_inj : ∀ a b : PackageStatus, rank a = rank b → a = b := by decide

lemma rank_lt_14_iff : ∀ s : PackageStatus, rank s < 14 ↔ s ≠ ISSUE_REPORTED := by
  decide

lemma minStep_fst_le (acc : Nat × PackageStatus) (s : PackageStatus) :
    (minStep acc s).1 ≤ acc.1 := by
  unfold minStep
  dsimp only
  split
  · exact Nat.le_of_lt (by assumption)
  · exact Nat.le_refl _

lemma minStep_fst_le_rank (acc : Nat × PackageStatus) (s : PackageStatus) :
    (minStep acc s).1 ≤ rank s := by
  unfold minStep rank
  dsimp only
  split
  · exact Nat.le_refl _
  · exact Nat.le_of_not_lt (by assumption)

lemma foldl_minStep_fst_le (l : List PackageStatus) :
    ∀ acc, (l.foldl minStep acc).1 ≤ acc.1 := by
  induction l with
  | nil => intro acc; exact Nat.le_refl _
  | cons s t ih =>
    intro acc
    calc (List.foldl minStep acc (s :: t)).1
        = (t.foldl minStep (minStep acc s)).1 := rfl
      _ ≤ (minStep acc s).1 := ih _
      _ ≤ acc.1 := minStep_fst_le acc s

lemma foldl_minStep_le_rank (l : List PackageStatus) :
    ∀ acc, ∀ s ∈ l, (l.foldl minStep acc).1 ≤ rank s := by
  induction l with
  | nil => intro acc s hs; cases hs
  | cons a t ih =>
    intro acc s hs
    cases hs with
    | head =>
      calc (List.foldl minStep acc (a :: t)).1
          = (t.foldl minStep (minStep acc a)).1 := rfl
        _ ≤ (minStep acc a).1 := foldl_minStep_fst_le t _
        _ ≤ rank a := minStep_fst_le_rank acc a
    | tail _ hmem => exact ih (minStep acc a) s hmem

lemma foldl_minStep_cases (l : List PackageStatus) :
    ∀ acc, l.foldl minStep acc = acc ∨
      ((l.foldl minStep acc).2 ∈ l ∧
        rank (l.foldl minStep acc).2 = (l.foldl minStep acc).1) := by
  induction l with
  | nil => intro acc; exact Or.inl rfl
  | cons a t ih =>
    intro acc
    have step : List.foldl minStep acc (a :: t) =
        t.foldl minStep (minStep acc a) := rfl
    rcases ih (minStep acc a) with h | ⟨hmem, hrank⟩
    · by_cases hlt : statusOrder.indexOf a < acc.1
      · right
        rw [step, h]
        unfold minStep
        simp only [hlt, if_pos]
        exact ⟨List.mem_cons_self a t, rfl⟩
      · left
        rw [step, h]
        unfold minStep
        simp only [hlt, if_neg, if_false]
    · right
      rw [step]
      exact ⟨List.mem_cons_of_mem a hmem, hrank⟩

/-- For a list of more than one package, the overall status of the
update transaction is the status of some package of the list, and its
rank is minimal among all the ranks of the list, ISSUE_REPORTED entries
included at rank 14. -/
lemma resolveOverall_mem_min (ns : PackageStatus) (pkgs : List Package)
    (h : 1 < pkgs.length) :
    resolveOverall ns pkgs ∈ pkgs.map (fun p => p.currentStatus) ∧
    ∀ p ∈ pkgs, rank (resolveOverall ns pkgs) ≤ rank p.currentStatus := by
  unfold resolveOverall
  rw [if_pos h]
  rcases foldl_minStep_cases (pkgs.map (fun p => p.currentStatus))
      (statusOrder.length, ns) with hC | ⟨hmem, hrank⟩
  · exfalso
    have hne : pkgs ≠ [] := by
      intro hnil
      rw [hnil] at h
      simp at h
    obtain ⟨p, hp⟩ := List.exists_mem_of_ne_nil pkgs hne
    have h1 := foldl_minStep_le_rank (pkgs.map (fun q => q.currentStatus))
      (statusOrder.length, ns) p.currentStatus (List.mem_map_of_mem _ hp)
    rw [hC] at h1
    have h2 := rank_lt_15 p.currentStatus
    rw [statusOrder_length] at h1
    omega
  · refine ⟨hmem, ?_⟩
    intro p hp
    have h1 := foldl_minStep_le_rank (pkgs.map (fun q => q.currentStatus))
      (statusOrder.length, ns) p.currentStatus (List.mem_map_of_mem _ hp)
    rw [hrank]
    exact h1

lemma minPkg_cases (b p : Package) : minPkg b p = b ∨ minPkg b p = p := by
  unfold minPkg
  split
  · exact Or.inr rfl
  · exact Or.inl rfl

lemma minPkg_rank_le_left (b p : Package) :
    rank (minPkg b p).currentStatus ≤ rank b.currentStatus := by
  unfold minPkg
  split
  · exact Nat.le_of_lt (by assumption)
  · exact Nat.le_refl _

lemma minPkg_rank_le_right (b p : Package) :
    rank (minPkg b p).currentStatus ≤ rank p.currentStatus := by
  unfold minPkg
  split
  · exact Nat.le_refl _
  · exact Nat.le_of_not_lt (by assumption)

lemma foldl_minPkg_spec (ms : List Package) :
    ∀ m, (ms.foldl minPkg m ∈ m :: ms) ∧
      (∀ p ∈ m :: ms,
        rank (ms.foldl minPkg m).currentStatus ≤ rank p.currentStatus) := by
  induction ms with
  | nil =>
    intro m
    exact ⟨List.mem_cons_self m [], by
      intro p hp
      cases hp with
      | head => exact Nat.le_refl _
      | tail _ hmem => cases hmem⟩
  | cons a t ih =>
    intro m
    have step : List.foldl minPkg m (a :: t) = t.foldl minPkg (minPkg m a) :=
      rfl
    obtain ⟨ihmem, ihmin⟩ := ih (minPkg m a)
    constructor
    · rw [step]
      rcases List.mem_cons.1 ihmem with hh | htail
      · rcases minPkg_cases m a with hcm | hca
        · rw [hh, hcm]; exact List.mem_cons_self m (a :: t)
        · rw [hh, hca]
          exact List.mem_cons_of_mem m (List.mem_cons_self a t)
      · exact List.mem_cons_of_mem m (List.mem_cons_of_mem a htail)
    · intro p hp
      rw [step]
      rcases List.mem_cons.1 hp with hpm | hp2
      · subst hpm
        calc rank (List.foldl minPkg (minPkg p a) t).currentStatus
            ≤ rank (minPkg p a).currentStatus :=
              ihmin _ (List.mem_cons_self _ t)
          _ ≤ rank p.currentStatus := minPkg_rank_le_left p a
      · rcases List.mem_cons.1 hp2 with hpa | hp3
        · subst hpa
          calc rank (List.foldl minPkg (minPkg m p) t).currentStatus
              ≤ rank (minPkg m p).currentStatus :=
                ihmin _ (List.mem_cons_self _ t)
            _ ≤ rank p.currentStatus := minPkg_rank_le_right m p
        · exact ihmin p (List.mem_cons_of_mem _ hp3)

lemma specResolve_singleton (p : Package) :
    specResolve [p] = some p.currentStatus := rfl

lemma resolveOverall_singleton (ns : PackageStatus) (p : Package) :
    resolveOverall ns [p] = ns := rfl

/-- On a list of more than one package the resolver written from the
spec words computes exactly the overall status the transaction inlines,
whatever the placeholder newStatus: the ISSUE_REPORTED entries the spec
skips sit at rank 14, above every ranked status, so they can never win
the minimum unless nothing else is there. -/
lemma specResolve_eq_resolveOverall (ns : PackageStatus) :
    ∀ pkgs : List Package, 1 < pkgs.length →
      specResolve pkgs = some (resolveOverall ns pkgs)
  | [], h => by simp at h
  | [p], h => by simp at h
  | p :: q :: rest, _ => by
    obtain ⟨hrmem, hrmin⟩ := resolveOverall_mem_min ns (p :: q :: rest)
      (by simp only [List.length_cons]; omega)
    show (match (p :: q :: rest).filter
        (fun r => decide (r.currentStatus ≠ ISSUE_REPORTED)) with
      | [] => some ISSUE_REPORTED
      | m :: ms => some ((ms.foldl minPkg m).currentStatus)) =
      some (resolveOverall ns (p :: q :: rest))
    split
    next hfil =>
      have hall : ∀ x ∈ p :: q :: rest, x.currentStatus = ISSUE_REPORTED := by
        intro x hx
        have hx2 := List.filter_eq_nil_iff.1 hfil x hx
        simpa using hx2
      obtain ⟨px, hpx, hpxe⟩ := List.mem_map.1 hrmem
      rw [hall px hpx] at hpxe
      rw [← hpxe]
    next m ms hfil =>
      obtain ⟨hwmem, hwmin⟩ := foldl_minPkg_spec ms m
      have hwfil : ms.foldl minPkg m ∈ (p :: q :: rest).filter
          (fun r => decide (r.currentStatus ≠ ISSUE_REPORTED)) := by
        rw [hfil]; exact hwmem
      have hwpkgs : ms.foldl minPkg m ∈ p :: q :: rest :=
        (List.mem_filter.1 hwfil).1
      have hwne : (ms.foldl minPkg m).currentStatus ≠ ISSUE_REPORTED := by
        have hb := (List.mem_filter.1 hwfil).2
        simpa using hb
      have h1 : rank (resolveOverall ns (p :: q :: rest)) ≤
          rank (ms.foldl minPkg m).currentStatus := hrmin _ hwpkgs
      have hrne : resolveOverall ns (p :: q :: rest) ≠ ISSUE_REPORTED := by
        have hw14 : rank (ms.foldl minPkg m).currentStatus < 14 :=
          (rank_lt_14_iff _).2 hwne
        exact (rank_lt_14_iff _).1 (lt_of_le_of_lt h1 hw14)
      obtain ⟨pr, hpr, hpre⟩ := List.mem_map.1 hrmem
      have hprfil : pr ∈ (p :: q :: rest).filter
          (fun r => decide (r.currentStatus ≠ ISSUE_REPORTED)) :=
        List.mem_filter.2 ⟨hpr, by simp [hpre, hrne]⟩
      rw [hfil] at hprfil
      have h2 : rank (ms.foldl minPkg m).currentStatus ≤
          rank pr.currentStatus := hwmin pr hprfil
      rw [hpre] at h2
      exact congrArg some (rank_inj _ _ (Nat.le_antisymm h2 h1))

/-! Lemmas about the association-list store. -/

lemma lookup_setAssoc_self {α : Type} (l : List (String × α)) (k : String)
    (v0 v : α) (h : lookupAssoc l k = some v0) :
    lookupAssoc (setAssoc l k v) k = some v := by
  induction l with
  | nil => simp [lookupAssoc] at h
  | cons e t ih =>
    by_cases hk : e.1 = k
    · simp [lookupAssoc, setAssoc, hk]
    · have h2 : lookupAssoc t k = some v0 := by
        simpa [lookupAssoc, hk] using h
      simpa [lookupAssoc, setAssoc, hk] using ih h2

/-- With no injected faults the tail of the transaction succeeds and
touches only the events and audits collections. -/
lemma finishUpdate_noFaults (st : Store) (packageId : String)
    (newStatus : PackageStatus) (userId notes location : String)
    (eventId auditId : String) (now : Nat) :
    (finishUpdate st noFaults packageId newStatus userId notes location
        eventId auditId now).2 = none ∧
    (finishUpdate st noFaults packageId newStatus userId notes location
        eventId auditId now).1.packages = st.packages ∧
    (finishUpdate st noFaults packageId newStatus userId notes location
        eventId auditId now).1.orders = st.orders :=
  ⟨rfl, rfl, rfl⟩

/-- Evaluation of the transaction with no faults when the package exists
but its parent order document does not: only the package, event and
audit writes happen. -/
lemma update_noFaults_eq_noOrder (st : Store) (pid : String)
    (ns : PackageStatus) (uid notes loc : String) (ad : PackagePatch)
    (eid aid : String) (now : Nat) (pkg : Package)
    (h1 : lookupAssoc st.packages pid = some pkg)
    (h2 : lookupAssoc st.orders pkg.orderId = none) :
    updatePackageStatus st noFaults pid ns uid notes loc ad eid aid now =
      finishUpdate
        { st with packages := setAssoc st.packages pid (applyPatch pkg ns ad) }
        noFaults pid ns uid notes loc eid aid now := by
  unfold updatePackageStatus
  rw [h1]
  dsimp only [noFaults]
  rw [h2]

/-- Evaluation of the transaction with no faults when both the package
and its parent order exist: the package is patched, the order gets the
rewritten embedded list and the recomputed overall status, then the
event and audit writes happen. -/
lemma update_noFaults_eq_order (st : Store) (pid : String)
    (ns : PackageStatus) (uid notes loc : String) (ad : PackagePatch)
    (eid aid : String) (now : Nat) (pkg : Package) (orderData : Order)
    (h1 : lookupAssoc st.packages pid = some pkg)
    (h2 : lookupAssoc st.orders pkg.orderId = some orderData) :
    updatePackageStatus st noFaults pid ns uid notes loc ad eid aid now =
      finishUpdate
        { st with
          packages := setAssoc st.packages pid (applyPatch pkg ns ad)
          orders := setAssoc st.orders pkg.orderId
            { orderData with
              packages := embedUpdate orderData.packages pid ns ad
              status :=
                resolveOverall ns (embedUpdate orderData.packages pid ns ad) } }
        noFaults pid ns uid notes loc eid aid now := by
  unfold updatePackageStatus
  rw [h1]
  dsimp only [noFaults]
  rw [h2]

lemma embedUpdate_length (pkgs : List Package) (pid : String)
    (ns : PackageStatus) (ad : PackagePatch) :
    (embedUpdate pkgs pid ns ad).length = pkgs.length :=
  List.length_map _ _

/-- When the embedded list holds an entry with the updated id, the
resolver written from the spec words agrees with the overall status the
transaction stores for the rewritten list: the patched entry carries the
requested status, which settles the singleton case, and longer lists
fall to the general agreement lemma. -/
lemma specResolve_embed (ns : PackageStatus) (ad : PackagePatch)
    (pid : String) (pkgs : List Package)
    (h : ∃ p ∈ pkgs, p.id = pid) :
    specResolve (embedUpdate pkgs pid ns ad) =
      some (resolveOverall ns (embedUpdate pkgs pid ns ad)) := by
  match pkgs with
  | [] =>
    obtain ⟨x, hx, _⟩ := h
    cases hx
  | [p] =>
    obtain ⟨x, hx, hxid⟩ := h
    have hxp : x = p := List.mem_singleton.1 hx
    subst hxp
    show specResolve (embedUpdate [x] pid ns ad) = _
    unfold embedUpdate
    simp only [List.map]
    rw [if_pos hxid]
    rw [specResolve_singleton, resolveOverall_singleton]
    rfl
  | p :: q :: rest =>
    apply specResolve_eq_resolveOverall
    rw [embedUpdate_length]
    simp only [List.length_cons]
    omega

/-! Claim C1. -/

/-- C1 counterexample: the transition CHINA_AGENT requesting DELIVERED
from RECEIVED_IN_CHINA is not offered by the UI policy, yet
updatePackageStatus accepts it, reports success and writes DELIVERED to
the normalized package record — the transaction performs no transition
validation at all. -/
theorem C1_counterexample :
    DELIVERED ∉ getAvailableNextStatuses CHINA_AGENT RECEIVED_IN_CHINA ∧
    (updatePackageStatus stEx noFaults "PKG-1" DELIVERED "user-1" ""
      "loc" {} "EVT-1" "AUD-1" 0).2 = none ∧
    Option.map (fun p => p.currentStatus)
      (lookupAssoc (updatePackageStatus stEx noFaults "PKG-1" DELIVERED
        "user-1" "" "loc" {} "EVT-1" "AUD-1" 0).1.packages "PKG-1") =
      some DELIVERED := by
  refine ⟨by decide, rfl, rfl⟩

/-- C1 (amended): updatePackageStatus does not consult the role
transition policy (it does not even receive the actor role); whenever
the package record exists and the repository writes succeed, the call
reports success and stores the requested status, whatever it is. The
validation exists only in the UI layer, where getAvailableNextStatuses
never offers DELIVERED to a CHINA_AGENT whose package is at
RECEIVED_IN_CHINA. -/
theorem C1_theorem (st : Store) (pid : String) (ns : PackageStatus)
    (uid notes loc : String) (ad : PackagePatch) (eid aid : String)
    (now : Nat) (pkg : Package)
    (h1 : lookupAssoc st.packages pid = some pkg) :
    ((updatePackageStatus st noFaults pid ns uid notes loc ad eid aid now).2 =
        none ∧
      lookupAssoc (updatePackageStatus st noFaults pid ns uid notes loc ad
        eid aid now).1.packages pid = some (applyPatch pkg ns ad)) ∧
    DELIVERED ∉ getAvailableNextStatuses CHINA_AGENT RECEIVED_IN_CHINA := by
  refine ⟨?_, by decide⟩
  cases horder : lookupAssoc st.orders pkg.orderId with
  | none =>
    rw [update_noFaults_eq_noOrder st pid ns uid notes loc ad eid aid now
      pkg h1 horder]
    obtain ⟨hres, hpk, _⟩ := finishUpdate_noFaults
      { st with packages := setAssoc st.packages pid (applyPatch pkg ns ad) }
      pid ns uid notes loc eid aid now
    refine ⟨hres, ?_⟩
    rw [hpk]
    exact lookup_setAssoc_self st.packages pid pkg (applyPatch pkg ns ad) h1
  | some orderData =>
    rw [update_noFaults_eq_order st pid ns uid notes loc ad eid aid now
      pkg orderData h1 horder]
    obtain ⟨hres, hpk, _⟩ := finishUpdate_noFaults
      { st with
        packages := setAssoc st.packages pid (applyPatch pkg ns ad)
        orders := setAssoc st.orders pkg.orderId
          { orderData with
            packages := embedUpdate orderData.packages pid ns ad
            status :=
              resolveOverall ns (embedUpdate orderData.packages pid ns ad) } }
      pid ns uid notes loc eid aid now
    refine ⟨hres, ?_⟩
    rw [hpk]
    exact lookup_setAssoc_self st.packages pid pkg (applyPatch pkg ns ad) h1

/-- C1 witness: the theorem applied to the Scenario C store, with the
requested status DELIVERED. -/
theorem C1_witness :
    lookupAssoc stEx.packages "PKG-1" = some pkgEx ∧
    ((updatePackageStatus stEx noFaults "PKG-1" DELIVERED "user-1" ""
        "loc" {} "EVT-1" "AUD-1" 0).2 = none ∧
      lookupAssoc (updatePackageStatus stEx noFaults "PKG-1" DELIVERED
        "user-1" "" "loc" {} "EVT-1" "AUD-1" 0).1.packages "PKG-1" =
        some (applyPatch pkgEx DELIVERED {})) ∧
    DELIVERED ∉ getAvailableNextStatuses CHINA_AGENT RECEIVED_IN_CHINA :=
  ⟨rfl, C1_theorem stEx "PKG-1" DELIVERED "user-1" "" "loc" {} "EVT-1"
    "AUD-1" 0 pkgEx rfl⟩

/-! Claim C2. -/

/-- C2 counterexample: the administrator list concatenates the three
phase lists and repeats the boundary status SHIPPED_TO_UAE, so from
SHIPPED_TO_UAE the returned sequence contains a status equal to the
current one — the claimed guarantee fails for the administrator. -/
theorem C2_counterexample :
    SHIPPED_TO_UAE ∈ getAvailableNextStatuses ADMIN SHIPPED_TO_UAE := by
  decide

/-- C2 (amended): every status returned by getAvailableNextStatuses
belongs to the phase list of the role; for the three agent roles, whose
lists are duplicate free, every returned status also sits at a strictly
greater index in that list than the current status and is never equal to
it. For the administrator the boundary statuses SHIPPED_TO_UAE and
SHIPPED_TO_IRAN occur twice in the concatenated list, and the result
from such a status contains the current status itself. -/
theorem C2_theorem :
    ∀ (role : UserRole) (current s : PackageStatus),
      s ∈ getAvailableNextStatuses role current →
      s ∈ roleStatusList role ∧
      ((role = CHINA_AGENT ∨ role = UAE_AGENT ∨ role = IRAN_AGENT) →
        (roleStatusList role).indexOf current <
          (roleStatusList role).indexOf s ∧ s ≠ current) := by
  decide

/-- C2 witness: the theorem applied to the CHINA_AGENT at
RECEIVED_IN_CHINA and the returned status QC_CHECKED. -/
theorem C2_witness :
    QC_CHECKED ∈ getAvailableNextStatuses CHINA_AGENT RECEIVED_IN_CHINA ∧
    QC_CHECKED ∈ roleStatusList CHINA_AGENT ∧
    (roleStatusList CHINA_AGENT).indexOf RECEIVED_IN_CHINA <
      (roleStatusList CHINA_AGENT).indexOf QC_CHECKED :=
  ⟨by decide,
    (C2_theorem CHINA_AGENT RECEIVED_IN_CHINA QC_CHECKED (by decide)).1,
    ((C2_theorem CHINA_AGENT RECEIVED_IN_CHINA QC_CHECKED (by decide)).2
      (Or.inl rfl)).1⟩

/-! Claim C3. -/

/-- C3: getAvailableNextStatuses is exactly the suffix of the phase list
of the role strictly after the first occurrence of the current status,
with the administrator list being the concatenation origin, hub,
destination; it is empty whenever the current status does not occur in
the list, in particular for ISSUE_REPORTED, which occurs in no phase
list; and for CHINA_AGENT at RECEIVED_IN_CHINA the result is exactly
the four later origin statuses. -/
theorem C3_theorem :
    (∀ (role : UserRole) (current : PackageStatus),
      getAvailableNextStatuses role current =
        match (roleStatusList role).indexOf? current with
        | none => []
        | some i => (roleStatusList role).drop (i + 1)) ∧
    (∀ (role : UserRole) (current : PackageStatus),
      current ∉ roleStatusList role →
      getAvailableNextStatuses role current = []) ∧
    (∀ role : UserRole,
      getAvailableNextStatuses role ISSUE_REPORTED = []) ∧
    getAvailableNextStatuses CHINA_AGENT RECEIVED_IN_CHINA =
      [QC_CHECKED, PACKED_CHINA, READY_TO_SHIP_UAE, SHIPPED_TO_UAE] := by
  refine ⟨by decide, by decide, by decide, by decide⟩

/-- C3 witness: the empty-result branch applied to a hub agent whose
package still sits in the origin phase. -/
theorem C3_witness :
    PURCHASED_FROM_SELLER ∉ roleStatusList UAE_AGENT ∧
    getAvailableNextStatuses UAE_AGENT PURCHASED_FROM_SELLER = [] :=
  ⟨by decide, C3_theorem.2.1 UAE_AGENT PURCHASED_FROM_SELLER (by decide)⟩

/-! Claim C4. -/

/-- C4 counterexample: the singleton case fails as claimed: the overall
status of a single package at ISSUE_REPORTED, under the requested status
DELIVERED, resolves to DELIVERED, the requested status, not to the
package status ISSUE_REPORTED the claim promises verbatim: the length
guard of the code returns newStatus for every list of at most one
package, never reading the entry. -/
theorem C4_counterexample :
    pkgIssue.currentStatus = ISSUE_REPORTED ∧
    resolveOverall DELIVERED [pkgIssue] = DELIVERED ∧
    resolveOverall DELIVERED [pkgIssue] ≠ pkgIssue.currentStatus :=
  ⟨rfl, rfl, by decide⟩

/-- C4 (amended): for a singleton list the transaction computes the
requested status, whatever the single package holds — the list is
returned verbatim only when that package already carries the requested
status, as it does when it is the entry just updated; for more than one
package the result is the status of some package, is never
ISSUE_REPORTED while a ranked package exists, and its rank is minimal
among the packages that are not ISSUE_REPORTED; and when every package
is ISSUE_REPORTED the result is ISSUE_REPORTED rather than a failure. In
the code the last holds because ISSUE_REPORTED is part of
Object.values(PackageStatus) at index 14, above every ranked status, not
because it is skipped. -/
theorem C4_theorem (ns : PackageStatus) (pkgs : List Package) :
    (∀ p : Package, pkgs = [p] → resolveOverall ns pkgs = ns) ∧
    (1 < pkgs.length →
      ((∃ p ∈ pkgs, p.currentStatus ≠ ISSUE_REPORTED) →
        resolveOverall ns pkgs ∈ pkgs.map (fun p => p.currentStatus) ∧
        resolveOverall ns pkgs ≠ ISSUE_REPORTED ∧
        (∀ q ∈ pkgs, q.currentStatus ≠ ISSUE_REPORTED →
          rank (resolveOverall ns pkgs) ≤ rank q.currentStatus)) ∧
      ((∀ p ∈ pkgs, p.currentStatus = ISSUE_REPORTED) →
        resolveOverall ns pkgs = ISSUE_REPORTED)) := by
  constructor
  · intro p hp
    subst hp
    exact resolveOverall_singleton ns p
  · intro hlen
    obtain ⟨hmem, hmin⟩ := resolveOverall_mem_min ns pkgs hlen
    constructor
    · rintro ⟨p, hp, hpne⟩
      refine ⟨hmem, ?_, ?_⟩
      · have h1 : rank (resolveOverall ns pkgs) ≤ rank p.currentStatus :=
          hmin p hp
        have h2 : rank p.currentStatus < 14 := (rank_lt_14_iff _).2 hpne
        exact (rank_lt_14_iff _).1 (lt_of_le_of_lt h1 h2)
      · intro q hq _
        exact hmin q hq
    · intro hall
      obtain ⟨px, hpx, hpxe⟩ := List.mem_map.1 hmem
      rw [← hpxe, hall px hpx]

/-- C4 witness: Scenario B, the two-package order at ARRIVED_UAE and
RECEIVED_IN_CHINA: the overall status is a package status, is not
ISSUE_REPORTED, has minimal rank, and indeed computes to
RECEIVED_IN_CHINA, the lower-ranked of the two; and the singleton clause
applied to the ISSUE_REPORTED package yields the requested status. -/
theorem C4_witness :
    1 < ([pkgB1, pkgB2] : List Package).length ∧
    resolveOverall ARRIVED_UAE [pkgB1, pkgB2] = RECEIVED_IN_CHINA ∧
    rank (resolveOverall ARRIVED_UAE [pkgB1, pkgB2]) ≤
      rank pkgB1.currentStatus ∧
    resolveOverall DELIVERED [pkgIssue] = DELIVERED :=
  ⟨by decide, by decide,
    (((C4_theorem ARRIVED_UAE [pkgB1, pkgB2]).2 (by decide)).1
      ⟨pkgB2, by decide, by decide⟩).2.2 pkgB1 (by decide) (by decide),
    (C4_theorem DELIVERED [pkgIssue]).1 pkgIssue rfl⟩

/-! Claim C5. -/

/-- C5: after a successful run of the transaction on a package whose
parent order exists and embeds an entry with the updated id, the stored
order satisfies the consistency invariant: its status field equals the
aggregate status resolver applied to its just-updated embedded list. -/
theorem C5_theorem (st : Store) (pid : String) (ns : PackageStatus)
    (uid notes loc : String) (ad : PackagePatch) (eid aid : String)
    (now : Nat) (pkg : Package) (orderData : Order)
    (h1 : lookupAssoc st.packages pid = some pkg)
    (h2 : lookupAssoc st.orders pkg.orderId = some orderData)
    (h3 : ∃ p ∈ orderData.packages, p.id = pid) :
    (updatePackageStatus st noFaults pid ns uid notes loc ad eid aid
      now).2 = none ∧
    ∃ o' : Order,
      lookupAssoc (updatePackageStatus st noFaults pid ns uid notes loc ad
        eid aid now).1.orders pkg.orderId = some o' ∧
      specResolve o'.packages = some o'.status := by
  rw [update_noFaults_eq_order st pid ns uid notes loc ad eid aid now
    pkg orderData h1 h2]
  obtain ⟨hres, _, hord⟩ := finishUpdate_noFaults
    { st with
      packages := setAssoc st.packages pid (applyPatch pkg ns ad)
      orders := setAssoc st.orders pkg.orderId
        { orderData with
          packages := embedUpdate orderData.packages pid ns ad
          status :=
            resolveOverall ns (embedUpdate orderData.packages pid ns ad) } }
    pid ns uid notes loc eid aid now
  refine ⟨hres, ?_⟩
  refine ⟨{ orderData with
      packages := embedUpdate orderData.packages pid ns ad
      status :=
        resolveOverall ns (embedUpdate orderData.packages pid ns ad) },
    ?_, ?_⟩
  · rw [hord]
    exact lookup_setAssoc_self st.orders pkg.orderId orderData _ h2
  · exact specResolve_embed ns ad pid orderData.packages h3

/-- C5 witness: the theorem applied to the Scenario B store, updating
PKG-B2 to QC_CHECKED. -/
theorem C5_witness :
    lookupAssoc stB.packages "PKG-B2" = some pkgB2 ∧
    lookupAssoc stB.orders pkgB2.orderId = some ordB ∧
    ((updatePackageStatus stB noFaults "PKG-B2" QC_CHECKED "user-1" ""
        "loc" {} "EVT-1" "AUD-1" 0).2 = none ∧
      ∃ o' : Order,
        lookupAssoc (updatePackageStatus stB noFaults "PKG-B2" QC_CHECKED
          "user-1" "" "loc" {} "EVT-1" "AUD-1" 0).1.orders pkgB2.orderId =
          some o' ∧
        specResolve o'.packages = some o'.status) :=
  ⟨rfl, rfl,
    C5_theorem stB "PKG-B2" QC_CHECKED "user-1" "" "loc" {} "EVT-1"
      "AUD-1" 0 pkgB2 ordB rfl rfl ⟨pkgB2, by decide, by decide⟩⟩

/-! Claim C6. -/

/-- C6 counterexample: Scenario D data — PKG-1 absent from the packages
collection but embedded in order ORD-1 — makes updatePackageStatus fail
with the Package not found error and change nothing; no recovery scan of
the orders and no materialization happens. -/
theorem C6_counterexample :
    lookupAssoc stOrphan.packages "PKG-1" = none ∧
    Option.map (fun o => o.packages.map (fun p => p.id))
      (lookupAssoc stOrphan.orders "ORD-1") = some ["PKG-1"] ∧
    updatePackageStatus stOrphan noFaults "PKG-1" QC_CHECKED "user-1" ""
      "loc" {} "EVT-1" "AUD-1" 0 = (stOrphan, some "Package not found") :=
  ⟨rfl, rfl, rfl⟩

/-- C6 (amended): updatePackageStatus fails with Package not found
whenever the packageId is absent from the normalized packages
collection, whatever the orders collection holds — the embedded copies
are never consulted and no normalized record is materialized; the state
is returned unchanged. -/
theorem C6_theorem (st : Store) (faults : WriteFaults) (pid : String)
    (ns : PackageStatus) (uid notes loc : String) (ad : PackagePatch)
    (eid aid : String) (now : Nat)
    (h : lookupAssoc st.packages pid = none) :
    updatePackageStatus st faults pid ns uid notes loc ad eid aid now =
      (st, some "Package not found") := by
  unfold updatePackageStatus
  rw [h]

/-- C6 witness: the theorem applied to the Scenario D store. -/
theorem C6_witness :
    lookupAssoc stOrphan.packages "PKG-1" = none ∧
    updatePackageStatus stOrphan noFaults "PKG-1" DELIVERED "user-1" ""
      "loc" {} "EVT-2" "AUD-2" 0 = (stOrphan, some "Package not found") :=
  ⟨rfl, C6_theorem stOrphan noFaults "PKG-1" DELIVERED "user-1" "" "loc"
    {} "EVT-2" "AUD-2" 0 rfl⟩

/-! Claim C7. -/

/-- C7 counterexample: updating pkgE, whose parent order ORD-E has an
empty embedded list, succeeds with no error of any kind; the order
status silently defaults to the requested status. The code has no
MalformedOrderError. -/
theorem C7_counterexample :
    Option.map (fun o => o.packages) (lookupAssoc stEmpty.orders "ORD-E") =
      some [] ∧
    (updatePackageStatus stEmpty noFaults "PKG-E" QC_CHECKED "user-1" ""
      "loc" {} "EVT-1" "AUD-1" 0).2 = none ∧
    Option.map (fun o => o.status)
      (lookupAssoc (updatePackageStatus stEmpty noFaults "PKG-E" QC_CHECKED
        "user-1" "" "loc" {} "EVT-1" "AUD-1" 0).1.orders "ORD-E") =
      some QC_CHECKED :=
  ⟨rfl, rfl, rfl⟩

/-- C7 (amended): when aggregation is attempted on an order whose
embedded package list is empty, no error is signalled: the transaction
succeeds, keeps the empty list and sets the order status to the
requested status. -/
theorem C7_theorem (st : Store) (pid : String) (ns : PackageStatus)
    (uid notes loc : String) (ad : PackagePatch) (eid aid : String)
    (now : Nat) (pkg : Package) (orderData : Order)
    (h1 : lookupAssoc st.packages pid = some pkg)
    (h2 : lookupAssoc st.orders pkg.orderId = some orderData)
    (h3 : orderData.packages = []) :
    (updatePackageStatus st noFaults pid ns uid notes loc ad eid aid
      now).2 = none ∧
    lookupAssoc (updatePackageStatus st noFaults pid ns uid notes loc ad
      eid aid now).1.orders pkg.orderId =
      some { orderData with packages := ([] : List Package), status := ns } := by
  rw [update_noFaults_eq_order st pid ns uid notes loc ad eid aid now
    pkg orderData h1 h2]
  obtain ⟨hres, _, hord⟩ := finishUpdate_noFaults
    { st with
      packages := setAssoc st.packages pid (applyPatch pkg ns ad)
      orders := setAssoc st.orders pkg.orderId
        { orderData with
          packages := embedUpdate orderData.packages pid ns ad
          status :=
            resolveOverall ns (embedUpdate orderData.packages pid ns ad) } }
    pid ns uid notes loc eid aid now
  refine ⟨hres, ?_⟩
  rw [hord, h3]
  exact lookup_setAssoc_self st.orders pkg.orderId orderData _ h2

/-- C7 witness: the theorem applied to the store with the empty order. -/
theorem C7_witness :
    ordEmpty.packages = [] ∧
    ((updatePackageStatus stEmpty noFaults "PKG-E" QC_CHECKED "user-1" ""
        "loc" {} "EVT-1" "AUD-1" 0).2 = none ∧
      lookupAssoc (updatePackageStatus stEmpty noFaults "PKG-E" QC_CHECKED
        "user-1" "" "loc" {} "EVT-1" "AUD-1" 0).1.orders pkgE.orderId =
        some { ordEmpty with packages := [], status := QC_CHECKED }) :=
  ⟨rfl, C7_theorem stEmpty "PKG-E" QC_CHECKED "user-1" "" "loc" {} "EVT-1"
    "AUD-1" 0 pkgE ordEmpty rfl rfl rfl⟩

/-! Claim C8. -/

/-- C8 counterexample: with the audit-log write failing, the transaction
on the sample store still reports success; no audit entry is stored and
the caller is never told — the error of a write the transaction performs
is silently swallowed by logAction, and no PartialUpdateError exists
anywhere in the code. -/
theorem C8_counterexample :
    (updatePackageStatus stEx { auditWrite := some "disk full" } "PKG-1"
      QC_CHECKED "user-1" "" "loc" {} "EVT-1" "AUD-1" 0).2 = none ∧
    (updatePackageStatus stEx { auditWrite := some "disk full" } "PKG-1"
      QC_CHECKED "user-1" "" "loc" {} "EVT-1" "AUD-1" 0).1.audits = [] ∧
    Option.map (fun p => p.currentStatus)
      (lookupAssoc (updatePackageStatus stEx
        { auditWrite := some "disk full" } "PKG-1" QC_CHECKED "user-1" ""
        "loc" {} "EVT-1" "AUD-1" 0).1.packages "PKG-1") =
      some QC_CHECKED :=
  ⟨rfl, rfl, rfl⟩

/-- C8 (amended): a failing order-side write is reported to the caller,
but as the raw repository error value, unchanged — not as a
distinguishable PartialUpdateError carrying which steps succeeded — and
it leaves the package write already applied; a failing audit-log write
is not reported at all: logAction swallows it and the transaction
returns success with the audits collection untouched. -/
theorem C8_theorem (st : Store) (pid : String) (ns : PackageStatus)
    (uid notes loc : String) (ad : PackagePatch) (eid aid : String)
    (now : Nat) (pkg : Package) (orderData : Order) (e : String)
    (h1 : lookupAssoc st.packages pid = some pkg)
    (h2 : lookupAssoc st.orders pkg.orderId = some orderData) :
    (updatePackageStatus st { orderWrite := some e } pid ns uid notes loc
        ad eid aid now =
      ({ st with packages := setAssoc st.packages pid (applyPatch pkg ns ad) },
        some e)) ∧
    ((updatePackageStatus st { auditWrite := some e } pid ns uid notes loc
        ad eid aid now).2 = none ∧
      (updatePackageStatus st { auditWrite := some e } pid ns uid notes loc
        ad eid aid now).1.audits = st.audits) := by
  refine ⟨?_, ?_, ?_⟩
  · unfold updatePackageStatus
    rw [h1]
    dsimp only
    rw [h2]
  · unfold updatePackageStatus
    rw [h1]
    dsimp only
    rw [h2]
    rfl
  · unfold updatePackageStatus
    rw [h1]
    dsimp only
    rw [h2]
    rfl

/-- C8 witness: the theorem applied to the sample store with the
repository error string io failure. -/
theorem C8_witness :
    updatePackageStatus stEx { orderWrite := some "io failure" } "PKG-1"
      QC_CHECKED "user-1" "" "loc" {} "EVT-1" "AUD-1" 0 =
      ({ stEx with packages := setAssoc stEx.packages "PKG-1" (applyPatch pkgEx QC_CHECKED {}) },
        some "io failure") ∧
    (updatePackageStatus stEx { auditWrite := some "io failure" } "PKG-1"
      QC_CHECKED "user-1" "" "loc" {} "EVT-1" "AUD-1" 0).2 = none :=
  ⟨(C8_theorem stEx "PKG-1" QC_CHECKED "user-1" "" "loc" {} "EVT-1" "AUD-1"
      0 pkgEx ordEx "io failure" rfl rfl).1,
    (C8_theorem stEx "PKG-1" QC_CHECKED "user-1" "" "loc" {} "EVT-1" "AUD-1"
      0 pkgEx ordEx "io failure" rfl rfl).2.1⟩

/-! Claim C9. -/

/-- C9: in the order-side write, only the embedded entries whose id is
the updated packageId are replaced (by their patched snapshot); every
entry at a position holding a different id is kept identical, at the
same position, and the list keeps its length and order. -/
theorem C9_theorem (st : Store) (pid : String) (ns : PackageStatus)
    (uid notes loc : String) (ad : PackagePatch) (eid aid : String)
    (now : Nat) (pkg : Package) (orderData : Order)
    (h1 : lookupAssoc st.packages pid = some pkg)
    (h2 : lookupAssoc st.orders pkg.orderId = some orderData) :
    (updatePackageStatus st noFaults pid ns uid notes loc ad eid aid
      now).2 = none ∧
    ∃ o' : Order,
      lookupAssoc (updatePackageStatus st noFaults pid ns uid notes loc ad
        eid aid now).1.orders pkg.orderId = some o' ∧
      o'.packages.length = orderData.packages.length ∧
      (∀ (i : Nat) (p : Package), orderData.packages[i]? = some p →
        p.id ≠ pid → o'.packages[i]? = some p) ∧
      (∀ (i : Nat) (p : Package), orderData.packages[i]? = some p →
        p.id = pid → o'.packages[i]? = some (applyPatch p ns ad)) := by
  rw [update_noFaults_eq_order st pid ns uid notes loc ad eid aid now
    pkg orderData h1 h2]
  obtain ⟨hres, _, hord⟩ := finishUpdate_noFaults
    { st with
      packages := setAssoc st.packages pid (applyPatch pkg ns ad)
      orders := setAssoc st.orders pkg.orderId
        { orderData with
          packages := embedUpdate orderData.packages pid ns ad
          status :=
            resolveOverall ns (embedUpdate orderData.packages pid ns ad) } }
    pid ns uid notes loc eid aid now
  refine ⟨hres, ?_⟩
  refine ⟨{ orderData with
      packages := embedUpdate orderData.packages pid ns ad
      status :=
        resolveOverall ns (embedUpdate orderData.packages pid ns ad) },
    ?_, ?_, ?_, ?_⟩
  · rw [hord]
    exact lookup_setAssoc_self st.orders pkg.orderId orderData _ h2
  · exact embedUpdate_length orderData.packages pid ns ad
  · intro i p hp hne
    show (embedUpdate orderData.packages pid ns ad)[i]? = some p
    unfold embedUpdate
    rw [List.getElem?_map, hp]
    simp [hne]
  · intro i p hp heq
    show (embedUpdate orderData.packages pid ns ad)[i]? =
      some (applyPatch p ns ad)
    unfold embedUpdate
    rw [List.getElem?_map, hp]
    simp [heq]

/-- C9 witness: the theorem applied to the Scenario B store, updating
PKG-B1; the untouched entry is PKG-B2 at position 1. -/
theorem C9_witness :
    ordB.packages[1]? = some pkgB2 ∧
    pkgB2.id ≠ "PKG-B1" ∧
    ∃ o' : Order,
      lookupAssoc (updatePackageStatus stB noFaults "PKG-B1" QC_CHECKED
        "user-1" "" "loc" {} "EVT-1" "AUD-1" 0).1.orders pkgB1.orderId =
        some o' ∧
      o'.packages[1]? = some pkgB2 := by
  obtain ⟨-, o', ho1, -, hframe, -⟩ :=
    C9_theorem stB "PKG-B1" QC_CHECKED "user-1" "" "loc" {} "EVT-1"
      "AUD-1" 0 pkgB1 ordB rfl rfl
  exact ⟨rfl, by decide, o', ho1, hframe 1 pkgB2 rfl (by decide)⟩

/-! Claim C10. -/

/-- C10: getPackagesByRole maps only the three agent roles to a status
filter and returns the packages whose current status passes it; for
ADMIN and CUSTOMER the target list stays empty and the method returns
the empty list without querying, so an administrator workload query
yields no packages. -/
theorem C10_theorem (packagesCol : List Package) :
    getPackagesByRole ADMIN packagesCol = [] ∧
    getPackagesByRole CUSTOMER packagesCol = [] ∧
    getPackagesByRole CHINA_AGENT packagesCol =
      packagesCol.filter
        (fun p => chinaWorkloadStatuses.contains p.currentStatus) ∧
    getPackagesByRole UAE_AGENT packagesCol =
      packagesCol.filter
        (fun p => uaeWorkloadStatuses.contains p.currentStatus) ∧
    getPackagesByRole IRAN_AGENT packagesCol =
      packagesCol.filter
        (fun p => iranWorkloadStatuses.contains p.currentStatus) :=
  ⟨rfl, rfl, rfl, rfl, rfl⟩
